import Mathlib

/-!
# Verification of the DodecaRGB model-generation pipeline

A shallow embedding of the geometry / validation pipeline of the
DodecaRGB firmware model generator (`src/util/generate_model.py`,
`src/util/dodeca_core.py`, `src/util/matrix3d.py`), together with proofs
of the spec's testable properties.

Modelling conventions:

* Python `int` values (face ids, rotations, LED labels) become `Int`;
  list positions and LED array indices become `Nat`.
* Python `float` arithmetic is idealised as arithmetic in a
  `LinearOrderedField K`.  The transcendental functions of the `math`
  module (`pi`, `cos`, `sin`) are abstracted as a `MathModel K` class;
  the intended instance is `K := ℝ` with `Real.pi` / `Real.cos` /
  `Real.sin`, and all theorems hold for every instance.
* Fallible code (validation errors, file loading, `generate_model`'s
  RuntimeError) is embedded with `Except`; a raised Python exception
  becomes an `Except.error` value carrying the data interpolated into
  the exception message.
* Euclidean distances: `Point3D.distance_to` computes
  `sqrt ((Δx)² + (Δy)² + (Δz)²)`.  Square roots are not available in a
  general ordered field, so the embedding works with the *squared*
  distance throughout the neighbour computation: since `sqrt` is
  strictly monotone on nonnegative reals, `sqrt d ≤ 100 ↔ d ≤ 100²` and
  sorting by `sqrt d` orders exactly as sorting by `d`.  The
  `Neighbor.distance` field of the embedding therefore stores the
  squared distance.
-/

set_option autoImplicit false
set_option linter.unusedVariables false

/-- Abstraction of the Python `math` module constants/functions used by the
source: `math.pi`, `math.cos`, `math.sin`.  The real-number instance below
is the intended semantics; every theorem in this file is proved for an
arbitrary instance. -/
class MathModel (K : Type) where
  pi : K
  cos : K → K
  sin : K → K

noncomputable instance : MathModel ℝ :=
  { pi := Real.pi, cos := Real.cos, sin := Real.sin }

/-- A degenerate rational instance.  It is used to *run* the (otherwise
generic) definitions on concrete inputs in witness theorems; no theorem
depends on which instance is chosen. -/
instance : MathModel ℚ :=
  { pi := 0, cos := fun _ => 0, sin := fun _ => 0 }

/-- Decidable equality for `Except`, so that concrete runs of the
fallible functions below can be checked by `decide`. -/
instance {ε α : Type} [DecidableEq ε] [DecidableEq α] :
    DecidableEq (Except ε α) := fun a b =>
  match a, b with
  | .error e, .error f => decidable_of_iff (e = f) (by simp)
  | .ok x, .ok y => decidable_of_iff (x = y) (by simp)
  | .error _, .ok _ => isFalse (by simp)
  | .ok _, .error _ => isFalse (by simp)

/-! ## Faces and remap validation (`generate_model.py`) -/

/-- The static data of a face instance (`Face` dataclass,
`generate_model.py` lines 70-82).  The `position` field and the mutable
`leds` list are not part of this structure: `position` is only echoed
into the export, and generated LEDs are tracked separately by the
pipeline state below. -/
structure Face where
  id : Int
  ftype : String
  rotation : Int
  remap_to : Option Int
  deriving DecidableEq

/-- `Face.get_geometric_id` (lines 80-82): `remap_to` if specified,
otherwise the logical face id. -/
def getGeometricId (f : Face) : Int :=
  f.remap_to.getD f.id

/-- The geometric ids of a face list, in face order. -/
def geomIds (faces : List Face) : List Int :=
  faces.map getGeometricId

/-- The validation errors raised by `ModelDefinition._validate_remapping`
(lines 199-230), as structured values carrying exactly the data that the
Python `ValueError` messages interpolate. -/
inductive RemapError where
  /-- "Face {id} has remap_to={r} which is not a valid face ID.
  Valid face IDs are: {sorted ids}" -/
  | invalidRemap (faceId : Int) (remapTo : Option Int) (validIds : List Int)
  /-- "Multiple faces mapped to same geometric position {g}:
  Face {firstId} and Face {secondId}" -/
  | duplicatePosition (geomId : Int) (firstId : Int) (secondId : Int)
  /-- "Missing geometric positions: {sorted missing}. ..." -/
  | missingPositions (missing : List Int)
  deriving DecidableEq

/-- Python's `sorted(some_set)` on a set of ints: deduplicate, then sort
ascending. -/
def sortedSet (xs : List Int) : List Int :=
  xs.dedup.mergeSort (fun a b => decide (a ≤ b))

/-- The `for face in self.faces` loop of `_validate_remapping`
(lines 208-222).  `acc` is the `geometric_positions` dict, as an ordered
association list `geometric id ↦ logical id of the face that claimed it`. -/
def validateLoop (allIds : List Int) : List Face → List (Int × Int) →
    Except RemapError (List (Int × Int))
  | [], acc => .ok acc
  | f :: fs, acc =>
    let g := getGeometricId f
    if g ∈ allIds then
      match acc.find? (fun q => q.1 = g) with
      | some q => .error (.duplicatePosition g q.2 f.id)
      | none => validateLoop allIds fs (acc ++ [(g, f.id)])
    else
      .error (.invalidRemap f.id f.remap_to (sortedSet allIds))

/-- `ModelDefinition._validate_remapping` (lines 199-230): short-circuit
on an empty face list, run the per-face loop, then check that the set of
claimed geometric ids equals the set of declared face ids. -/
def validateRemapping (faces : List Face) : Except RemapError Unit :=
  if faces.isEmpty then .ok ()
  else
    let allIds := faces.map Face.id
    match validateLoop allIds faces [] with
    | .error e => .error e
    | .ok acc =>
      let gs := acc.map Prod.fst
      if gs.toFinset = allIds.toFinset then .ok ()
      else
        let missing := sortedSet (allIds.filter (fun i => decide (i ∉ gs)))
        if missing.isEmpty then .ok () else .error (.missingPositions missing)

/-- The property claimed by the spec's bijection invariant: the
geometric ids, with no duplicates, are exactly `{0, …, faceCount−1}`. -/
def bijectionOntoRange (faces : List Face) : Prop :=
  (geomIds faces).Nodup ∧
    (geomIds faces).toFinset =
      ((List.range faces.length).map Int.ofNat).toFinset

instance (faces : List Face) : Decidable (bijectionOntoRange faces) := by
  unfold bijectionOntoRange; infer_instance

/-- What `_validate_remapping` actually enforces: the geometric ids,
with no duplicates, are exactly the set of *declared logical face ids*
(not necessarily the contiguous range `0..faceCount−1`). -/
def bijectionOntoIds (faces : List Face) : Prop :=
  (geomIds faces).Nodup ∧
    (geomIds faces).toFinset = (faces.map Face.id).toFinset

instance (faces : List Face) : Decidable (bijectionOntoIds faces) := by
  unfold bijectionOntoIds; infer_instance

/-! ## The affine transform engine (`matrix3d.py`) -/

section Matrix3DSection

variable {K : Type} [LinearOrderedField K] [MathModel K]

/-- A 3D point `[x, y, z]`. -/
structure Point3D (K : Type) where
  x : K
  y : K
  z : K
  deriving DecidableEq

/-- The `Matrix3D` transform engine (`matrix3d.py` lines 4-84): a 4×4
homogeneous matrix plus a save stack.  The Python list-of-rows matrix is
embedded as `Matrix (Fin 4) (Fin 4) K`; the Python stack (append / pop
at the end of a list) is embedded with the top of the stack at the head
of the list. -/
structure Matrix3D (K : Type) where
  m : Matrix (Fin 4) (Fin 4) K
  stack : List (Matrix (Fin 4) (Fin 4) K)

/-- `Matrix3D.__init__` (lines 6-12): identity matrix, empty stack. -/
def Matrix3D.init : Matrix3D K :=
  { m := 1, stack := [] }

/-- `Matrix3D.apply` (lines 14-24): treat the input as a homogeneous
point with `w = 1`, multiply, and return `(x, y, z)`. -/
def Matrix3D.apply (st : Matrix3D K) (p : Point3D K) : Point3D K :=
  { x := p.x * st.m 0 0 + p.y * st.m 0 1 + p.z * st.m 0 2 + 1 * st.m 0 3,
    y := p.x * st.m 1 0 + p.y * st.m 1 1 + p.z * st.m 1 2 + 1 * st.m 1 3,
    z := p.x * st.m 2 0 + p.y * st.m 2 1 + p.z * st.m 2 2 + 1 * st.m 2 3 }

/-- `Matrix3D.rotate_x` (lines 26-34): `m := m * rot`. -/
def Matrix3D.rotate_x (st : Matrix3D K) (angle : K) : Matrix3D K :=
  let c := MathModel.cos angle
  let s := MathModel.sin angle
  { st with m := st.m * !![1, 0, 0, 0; 0, c, -s, 0; 0, s, c, 0; 0, 0, 0, 1] }

/-- `Matrix3D.rotate_z` (lines 36-44). -/
def Matrix3D.rotate_z (st : Matrix3D K) (angle : K) : Matrix3D K :=
  let c := MathModel.cos angle
  let s := MathModel.sin angle
  { st with m := st.m * !![c, -s, 0, 0; s, c, 0, 0; 0, 0, 1, 0; 0, 0, 0, 1] }

/-- `Matrix3D.rotate_y` (lines 46-57). -/
def Matrix3D.rotate_y (st : Matrix3D K) (angle : K) : Matrix3D K :=
  let c := MathModel.cos angle
  let s := MathModel.sin angle
  { st with m := st.m * !![c, 0, s, 0; 0, 1, 0, 0; -s, 0, c, 0; 0, 0, 0, 1] }

/-- `Matrix3D.translate` (lines 68-74). -/
def Matrix3D.translate (st : Matrix3D K) (tx ty tz : K) : Matrix3D K :=
  { st with m := st.m * !![1, 0, 0, tx; 0, 1, 0, ty; 0, 0, 1, tz; 0, 0, 0, 1] }

/-- `Matrix3D.push_matrix` (lines 76-78): save a copy of the current
matrix on the stack. -/
def Matrix3D.push_matrix (st : Matrix3D K) : Matrix3D K :=
  { st with stack := st.m :: st.stack }

/-- `Matrix3D.pop_matrix` (lines 80-84): raise
`Exception("Matrix stack is empty")` on an empty stack, otherwise
restore the most recently saved matrix. -/
def Matrix3D.pop_matrix (st : Matrix3D K) : Except String (Matrix3D K) :=
  match st.stack with
  | [] => .error "Matrix stack is empty"
  | top :: rest => .ok { m := top, stack := rest }

/-- A rotate-or-translate operation on the engine (the operations the
spec's transform round-trip property quantifies over). -/
inductive TOp (K : Type) where
  | rotX (angle : K)
  | rotY (angle : K)
  | rotZ (angle : K)
  | transl (tx ty tz : K)

/-- Run one operation. -/
def execOp (st : Matrix3D K) : TOp K → Matrix3D K
  | .rotX a => st.rotate_x a
  | .rotY a => st.rotate_y a
  | .rotZ a => st.rotate_z a
  | .transl tx ty tz => st.translate tx ty tz

/-- Run a sequence of rotate/translate operations. -/
def execOps (ops : List (TOp K)) (st : Matrix3D K) : Matrix3D K :=
  ops.foldl execOp st

theorem execOp_stack (st : Matrix3D K) (op : TOp K) :
    (execOp st op).stack = st.stack := by
  cases op <;> rfl

theorem execOps_stack (ops : List (TOp K)) (st : Matrix3D K) :
    (execOps ops st).stack = st.stack := by
  induction ops generalizing st with
  | nil => rfl
  | cons op ops ih => rw [execOps, List.foldl_cons, ← execOps, ih, execOp_stack]

end Matrix3DSection

/-! ## Constants and the face placement algorithm (`dodeca_core.py`) -/

section DodecaCoreSection

variable {K : Type} [LinearOrderedField K] [MathModel K]

/-- `MAX_LED_NEIGHBORS = 7` (`dodeca_core.py` line 12). -/
def MAX_LED_NEIGHBORS : Nat := 7

/-- `TWO_PI = 2 * math.pi` (line 15). -/
def TWO_PI : K := 2 * MathModel.pi

/-- `zv = TWO_PI/20`, rotation between faces (line 16). -/
def zv : K := TWO_PI / 20

/-- `ro = TWO_PI/5`, rotation for pentagon points (line 17). -/
def ro : K := TWO_PI / 5

/-- `xv = 1.1071`, angle between faces (line 18). -/
def xv : K := 11071 / 10000

/-- `radius = 200`, base radius for pentagon faces (line 19). -/
def radius : K := 200

/-- `scale = 5.15`, LED position scaling factor (line 20). -/
def pcbScale : K := 103 / 20

/-- The side-rotation angle the code applies (`dodeca_core.py` line 93:
`m.rotate_z(ro * rotation)`): `ro` is the fixed constant `2π/5`,
independent of the face type's side count. -/
def appliedSideRotation (r : Int) : K :=
  ro * (r : K)

/-- Modelled from the spec: "The rotation parameter *r* is applied as an
additional Z-rotation of `r · (2π / sides)`" — the side-rotation angle
as the spec words it, as a function of the face type's side count.
Defined only to be compared with `appliedSideRotation`. -/
def specSideRotation (sides : Nat) (r : Int) : K :=
  (r : K) * (TWO_PI / (sides : K))

/-- The transform chain of `transform_led_point` (`dodeca_core.py` lines
56-100) with the side-rotation angle of line 93 factored out as the
`sideRot` parameter, so that the angle the code uses
(`appliedSideRotation`) can be compared against the spec's
`r · (2π / sides)` (`specSideRotation`).  Every other step is translated
line by line from the source. -/
def transformLedPointAux (sideRot : K) (x y : K) (num : Int)
    (sideNumber : Int) : Point3D K :=
  let m : Matrix3D K := Matrix3D.init
  let m := m.rotate_x MathModel.pi
  let m :=
    if sideNumber = 0 then
      m.rotate_z (-zv - ro * 2)
    else if 0 < sideNumber ∧ sideNumber < 6 then
      (m.rotate_z (ro * (sideNumber : K) + zv - ro)).rotate_x xv
    else if 6 ≤ sideNumber ∧ sideNumber < 11 then
      (m.rotate_z (ro * (sideNumber : K) - zv + ro * 3)).rotate_x
        (MathModel.pi - xv)
    else
      (m.rotate_x MathModel.pi).rotate_z zv
  let m := m.translate 0 0 (radius * (131 / 100))
  let m :=
    if 6 ≤ sideNumber ∧ sideNumber < 11 then m.rotate_z zv
    else m.rotate_z (-zv)
  let m := m.rotate_z sideRot
  let m := m.rotate_z (-(MathModel.pi / 10))
  let result := m.apply { x := x, y := y, z := 0 }
  { x := result.x, y := -result.y, z := -result.z }

/-- `transform_led_point(x, y, num, sideNumber, rotation)`
(`dodeca_core.py` lines 56-100).  The `num` parameter is accepted and
unused, exactly as in the source. -/
def transformLedPoint (x y : K) (num : Int) (sideNumber : Int)
    (rotation : Int) : Point3D K :=
  transformLedPointAux (appliedSideRotation rotation) x y num sideNumber

/-- Modelled from the spec: the face placement with the side rotation
taken to be `r · (2π / sides)` for the face type's side count `sides`,
as §4.2 of the spec words it.  Defined only to be compared with
`transformLedPoint`. -/
def transformLedPointSpec (sides : Nat) (x y : K) (num : Int)
    (sideNumber : Int) (rotation : Int) : Point3D K :=
  transformLedPointAux (specSideRotation sides rotation) x y num sideNumber

end DodecaCoreSection

/-! ## LEDs, model generation and the neighbour graph
(`generate_model.py`) -/

section GenerationSection

variable {K : Type} [LinearOrderedField K] [MathModel K]

/-- An entry of the `pcb_points` list built by `load_pcb_points`
(`dodeca_core.py` lines 184-189): scaled coordinates, 0-based LED
number, and the raw designator. -/
structure PcbPoint (K : Type) where
  x : K
  y : K
  num : Int
  ref : List Char
  deriving DecidableEq

/-- A neighbouring LED with its distance (`Neighbor` dataclass,
`generate_model.py` lines 49-53).  In this embedding `distance` holds
the *squared* Euclidean distance (see the module header): the source
stores `sqrt distance`, which is order-isomorphic. -/
structure Neighbor (K : Type) where
  led_number : Nat
  distance : K
  deriving DecidableEq

/-- The `LED` dataclass (`generate_model.py` lines 131-138).  The
source initialises `neighbors` to `None`; the embedding uses `[]`. -/
structure LED (K : Type) where
  index : Nat
  position : Point3D K
  label : Int
  face_id : Int
  neighbors : List (Neighbor K)
  deriving DecidableEq

/-- The squared Euclidean distance between two points
(`Point3D.distance_to`, `generate_model.py` lines 41-47, computes its
square root). -/
def distSq (p q : Point3D K) : K :=
  (p.x - q.x) ^ 2 + (p.y - q.y) ^ 2 + (p.z - q.z) ^ 2

/-- The default `max_distance = 100` of `_calculate_neighbors`
(line 437). -/
def maxNeighborDistance : K := 100

/-- The inner loop of `_calculate_neighbors` (lines 440-445): all other
LEDs within the maximum radius, in input order.  The source filters on
`sqrt d ≤ 100`; the embedding equivalently filters on `d ≤ 100²`. -/
def neighborCandidates (l : LED K) (leds : List (LED K)) :
    List (Neighbor K) :=
  leds.filterMap fun other =>
    if l.index ≠ other.index then
      if distSq l.position other.position ≤ maxNeighborDistance ^ 2 then
        some { led_number := other.index,
               distance := distSq l.position other.position }
      else none
    else none

/-- `distances.sort(key=lambda x: x.distance)` (line 447): Python's
stable sort, embedded as a stable merge sort keyed on the stored
distance. -/
def sortedCandidates (l : LED K) (leds : List (LED K)) :
    List (Neighbor K) :=
  (neighborCandidates l leds).mergeSort
    (fun a b => decide (a.distance ≤ b.distance))

/-- `DodecaModel._calculate_neighbors` (lines 437-448): give every LED
the first `MAX_LED_NEIGHBORS` of its distance-sorted candidates. -/
def calculateNeighbors (leds : List (LED K)) : List (LED K) :=
  leds.map fun l =>
    { l with neighbors := (sortedCandidates l leds).take MAX_LED_NEIGHBORS }

/-- One LED record as built in the generation loop of
`DodecaModel.generate_model` (lines 262-268): position from the face
placement transform called with the *geometric* id and the face's
rotation, `label` the 1-based LED number, `face_id` the *logical* face
id. -/
def ledRecord (f : Face) (idx : Nat) (p : PcbPoint K) : LED K :=
  { index := idx,
    position :=
      transformLedPoint p.x p.y p.num (getGeometricId f) f.rotation,
    label := p.num + 1,
    face_id := f.id,
    neighbors := [] }

/-- The inner `for led in self._pcb_points` loop for one face: one LED
record per PCB point, with consecutive indices starting at `start`
(the running length of the model's LED list). -/
def ledsForFace (f : Face) (pts : List (PcbPoint K)) (start : Nat) :
    List (LED K) :=
  match pts with
  | [] => []
  | p :: ps => ledRecord f start p :: ledsForFace f ps (start + 1)

/-- The outer `for face in self.model_def.faces` loop of
`generate_model` (lines 257-270).  A face is carried together with its
`leds` list; the result is the updated face list plus the flat list of
newly generated LEDs in generation order. -/
def generateFaces (faces : List (Face × List (LED K)))
    (pts : List (PcbPoint K)) (start : Nat) :
    List (Face × List (LED K)) × List (LED K) :=
  match faces with
  | [] => ([], [])
  | (f, ls) :: rest =>
    let block := ledsForFace f pts start
    let r := generateFaces rest pts (start + pts.length)
    ((f, ls ++ block) :: r.1, block ++ r.2)

/-- The mutable state of a `DodecaModel` together with its
`ModelDefinition`: the face instances (each with its generated LEDs),
the `_pcb_points` field (`None` until `load_pcb_data` has run), and the
model-wide LED list.  The `face_types` catalog is not represented: the
generation loop looks a face's type up but never uses it. -/
structure DodecaState (K : Type) where
  faces : List (Face × List (LED K))
  pcbPoints : Option (List (PcbPoint K))
  leds : List (LED K)
  deriving DecidableEq

/-- `DodecaModel.load_pcb_data` (lines 245-249), with the already
loaded point list as argument. -/
def loadPcbData (s : DodecaState K) (pts : List (PcbPoint K)) :
    DodecaState K :=
  { s with pcbPoints := some pts }

/-- `DodecaModel.generate_model` (lines 251-273).  `if not
self._pcb_points` treats both `None` and an empty list as "not loaded"
and raises `RuntimeError("PCB data must be loaded first")` — before any
LED has been appended to the model or to any face, so the error branch
returns no new state at all.  On success the new LEDs are appended and
`_calculate_neighbors` runs over the model LED list.  (In the source
the face-owned LED objects alias the model list and therefore also
receive neighbours; the embedding keeps the per-face copies as
generated, which no claim observes.) -/
def generateModel (s : DodecaState K) : Except String (DodecaState K) :=
  match s.pcbPoints with
  | none => .error "PCB data must be loaded first"
  | some pts =>
    if pts.isEmpty then .error "PCB data must be loaded first"
    else
      let r := generateFaces s.faces pts s.leds.length
      .ok { s with
              faces := r.1,
              leds := calculateNeighbors (s.leds ++ r.2) }

/-- Errors surfaced by the load-validate-generate pipeline
(`ModelDefinition.__init__` → `load_pcb_data` → `generate_model` as
driven by `main`, lines 888-893). -/
inductive PipelineError where
  | remapError (e : RemapError)
  | genError (msg : String)
  deriving DecidableEq

/-- The pipeline of `main` (lines 888-893): load the face definitions
(which validates the remapping and aborts on any violation), then load
PCB data and generate geometry. -/
def runPipeline (faces : List Face) (pts : Option (List (PcbPoint K))) :
    Except PipelineError (DodecaState K) :=
  match validateRemapping faces with
  | .error e => .error (.remapError e)
  | .ok _ =>
    match generateModel { faces := faces.map (fun f => (f, [])),
                          pcbPoints := pts, leds := [] } with
    | .error msg => .error (.genError msg)
    | .ok s => .ok s

end GenerationSection

/-! ## Unit normalisation and placement-file loading
(`dodeca_core.py` lines 102-195)

Python strings are embedded as `List Char`.  The Python built-ins
`float` and `int` are not part of this repository; they are modelled
below (`parseFloat`, `parseInt`) as exact parsers of plain decimal
literals into `ℚ`. -/

/-- Whitespace as stripped by Python's `str.strip()`. -/
def isPySpace (c : Char) : Bool :=
  c = ' ' ∨ c = '\t' ∨ c = '\n' ∨ c = '\r'

/-- `str.strip()`: remove leading and trailing whitespace. -/
def pyStrip (s : List Char) : List Char :=
  ((s.dropWhile isPySpace).reverse.dropWhile isPySpace).reverse

/-- `str.strip(chars)` for a single character: remove leading and
trailing occurrences of `c`. -/
def pyStripChar (c : Char) (s : List Char) : List Char :=
  ((s.dropWhile (· = c)).reverse.dropWhile (· = c)).reverse

/-- `stripit` (`dodeca_core.py` lines 114-116): strip whitespace and
quotes. -/
def stripit (s : List Char) : List Char :=
  pyStripChar '"' (pyStrip s)

/-- `str.replace(pat, '')`: remove every occurrence of `pat`. -/
def removeAll (pat : List Char) : List Char → List Char
  | [] => []
  | c :: rest =>
    if h : pat ≠ [] ∧ pat.isPrefixOf (c :: rest) then
      removeAll pat ((c :: rest).drop pat.length)
    else
      c :: removeAll pat rest
termination_by s => s.length
decreasing_by
  · simp only [List.length_drop]
    have : 1 ≤ pat.length := by
      cases pat with
      | nil => exact absurd rfl h.1
      | cons a l => simp
    simp only [List.length_cons]
    omega
  · simp

/-- The digits of a decimal literal as a natural number. -/
def digitsVal : List Char → Nat
  | [] => 0
  | c :: rest => (digitsVal rest) + c.toNat.sub 48 * 10 ^ rest.length

/-- Modelled from the spec: the Python built-in `float` (not part of
this repository) restricted to the plain decimal literals that occur in
placement files — optional surrounding whitespace, optional sign,
digits with an optional fractional part — parsed exactly into `ℚ`.
Anything else (in particular any leftover unit letters) is a parse
failure, which in Python raises `ValueError`. -/
def parseFloat (s : List Char) : Option ℚ :=
  let cs := pyStrip s
  let core : List Char → Option ℚ := fun cs =>
    let intPart := cs.takeWhile Char.isDigit
    let rest := cs.drop intPart.length
    match rest with
    | [] =>
      if intPart.isEmpty then none
      else some (digitsVal intPart : ℚ)
    | '.' :: frac =>
      if frac.all Char.isDigit ∧ ¬(intPart.isEmpty ∧ frac.isEmpty) then
        some ((digitsVal intPart : ℚ) +
          (digitsVal frac : ℚ) / (10 : ℚ) ^ frac.length)
      else none
    | _ => none
  match cs with
  | '-' :: rest => (core rest).map Neg.neg
  | '+' :: rest => core rest
  | _ => core cs

/-- Modelled from the spec: the Python built-in `int` (not part of this
repository) on a string — optional surrounding whitespace, optional
sign, decimal digits. -/
def parseInt (s : List Char) : Option Int :=
  let cs := pyStrip s
  let core : List Char → Option Int := fun cs =>
    if cs ≠ [] ∧ cs.all Char.isDigit then some (digitsVal cs : Int)
    else none
  match cs with
  | '-' :: rest => (core rest).map Neg.neg
  | '+' :: rest => core rest
  | _ => core cs

/-- `strip_units` (`dodeca_core.py` lines 102-112): strip units (`mm`
or `mil`) from a coordinate string and convert to mm — `mil` values are
multiplied by `25.4 / 1000`, `mm` values and bare numbers are returned
unchanged.  A failed numeric parse is `none` (Python: `ValueError`). -/
def stripUnits (s : List Char) : Option ℚ :=
  let v := pyStrip s
  if ['m', 'i', 'l'].isSuffixOf v then
    (parseFloat (removeAll ['m', 'i', 'l'] v)).map
      (fun q => q * (127 / 5) / 1000)
  else if ['m', 'm'].isSuffixOf v then
    parseFloat (removeAll ['m', 'm'] v)
  else
    parseFloat v

/-- One data row of the placement file, reduced to the three columns
`load_pcb_points` reads (`dodeca_core.py` lines 159-167): the raw
fields found at the `Designator`, `Mid X` and `Mid Y` header indices.
Tab-splitting, header-index discovery and encoding detection are
faithful pass-throughs and are elided. -/
structure PlacementRow where
  designator : List Char
  midX : List Char
  midY : List Char
  deriving DecidableEq

/-- Errors raised by `load_pcb_points`: `FileNotFoundError` (line 124)
and the re-raised `ValueError` reported with `Error parsing line
{line_num}` (lines 190-192). -/
inductive LoadError where
  | notFound
  | parseError (lineNum : Nat)
  deriving DecidableEq

/-- Is the row's (stripped) designator an LED reference
(`ref.startswith('LED')`, line 169)? -/
def isLedRow (r : PlacementRow) : Bool :=
  ['L', 'E', 'D'].isPrefixOf (stripit r.designator)

/-- The body of the `try` block for one recognised LED row (lines
170-189): parse both coordinates, apply the (zero) offsets and then the
scale, and parse the LED number from the designator.  `none` models the
`ValueError` the Python code catches. -/
def parseLedRow (r : PlacementRow) : Option (PcbPoint ℚ) :=
  let ref := stripit r.designator
  match stripUnits (stripit r.midX), stripUnits (stripit r.midY),
      parseInt (removeAll ['L', 'E', 'D'] ref) with
  | some x, some y, some n =>
    some { x := (x + 0) * pcbScale, y := (y - 0) * pcbScale,
           num := n - 1, ref := ref }
  | _, _, _ => none

/-- The `for line_num, line in enumerate(f, 2)` loop (lines 165-192):
skip rows whose designator is not an LED reference; on a recognised LED
row, parse it or fail naming the row's line number. -/
def processRows : List PlacementRow → Nat →
    Except LoadError (List (PcbPoint ℚ))
  | [], _ => .ok []
  | r :: rs, n =>
    if isLedRow r then
      match parseLedRow r with
      | some p => (processRows rs (n + 1)).map (fun ps => p :: ps)
      | none => .error (.parseError n)
    else
      processRows rs (n + 1)

/-- `load_pcb_points` (`dodeca_core.py` lines 118-195).  The file is
given as `none` (missing) or the list of its data rows; data rows are
numbered from 2, line 1 being the header. -/
def loadPcbPoints (file : Option (List PlacementRow)) :
    Except LoadError (List (PcbPoint ℚ)) :=
  match file with
  | none => .error .notFound
  | some rows => processRows rows 2

/-! ## Helper lemmas: remap validation -/

theorem toFinset_eq_iff {xs ys : List Int} :
    xs.toFinset = ys.toFinset ↔ ∀ a, a ∈ xs ↔ a ∈ ys := by
  simp [Finset.ext_iff]

theorem mem_sortedSet {xs : List Int} {a : Int} :
    a ∈ sortedSet xs ↔ a ∈ xs := by
  simp [sortedSet, List.mem_mergeSort, List.mem_dedup]

theorem sortedSet_eq_nil_iff {xs : List Int} :
    sortedSet xs = [] ↔ xs = [] := by
  constructor
  · intro h
    by_contra hne
    obtain ⟨a, ha⟩ := List.exists_mem_of_ne_nil xs hne
    have : a ∈ sortedSet xs := mem_sortedSet.mpr ha
    simp [h] at this
  · intro h
    subst h
    simp [sortedSet]

theorem validateLoop_ok_val (allIds : List Int) :
    ∀ (fs : List Face) (acc res : List (Int × Int)),
      validateLoop allIds fs acc = .ok res →
      res = acc ++ fs.map (fun f => (getGeometricId f, f.id))
  | [], acc, res => by
    intro h
    simp [validateLoop] at h
    simp [← h]
  | f :: fs, acc, res => by
    intro h
    rw [validateLoop] at h
    by_cases hg : getGeometricId f ∈ allIds
    · rw [if_pos hg] at h
      cases hfind : (acc.find? (fun q => q.1 = getGeometricId f)) with
      | some q => rw [hfind] at h; exact absurd h (by simp)
      | none =>
        rw [hfind] at h
        have := validateLoop_ok_val allIds fs (acc ++ [(getGeometricId f, f.id)]) res h
        simpa using this
    · rw [if_neg hg] at h
      exact absurd h (by simp)

theorem validateLoop_isOk_iff (allIds : List Int) :
    ∀ (fs : List Face) (acc : List (Int × Int)),
      (∃ res, validateLoop allIds fs acc = .ok res) ↔
      ((∀ f ∈ fs, getGeometricId f ∈ allIds) ∧
        (fs.map getGeometricId).Nodup ∧
        (∀ f ∈ fs, getGeometricId f ∉ acc.map Prod.fst))
  | [], acc => by simp [validateLoop]
  | f :: fs, acc => by
    rw [validateLoop]
    by_cases hg : getGeometricId f ∈ allIds
    · rw [if_pos hg]
      cases hfind : (acc.find? (fun q => q.1 = getGeometricId f)) with
      | some q =>
        simp only [hfind]
        have hq : getGeometricId f ∈ acc.map Prod.fst := by
          have hmem := List.mem_of_find?_eq_some hfind
          have hpq := List.find?_some hfind
          simp only [decide_eq_true_eq] at hpq
          exact hpq ▸ List.mem_map_of_mem Prod.fst hmem
        constructor
        · rintro ⟨res, hres⟩; exact absurd hres (by simp)
        · rintro ⟨-, -, hnone⟩
          exact absurd hq (hnone f (List.mem_cons_self f fs))
      | none =>
        simp only [hfind]
        rw [validateLoop_isOk_iff allIds fs (acc ++ [(getGeometricId f, f.id)])]
        have hnotin : getGeometricId f ∉ acc.map Prod.fst := by
          intro hmem
          obtain ⟨q, hq, hq1⟩ := List.mem_map.mp hmem
          have := List.find?_eq_none.mp hfind q hq
          simp [hq1] at this
        constructor
        · rintro ⟨hall, hnd, hacc'⟩
          refine ⟨fun f' hf' => ?_, ?_, ?_⟩
          · rcases List.mem_cons.mp hf' with h | h
            · exact h ▸ hg
            · exact hall f' h
          · rw [List.map_cons, List.nodup_cons]
            refine ⟨?_, hnd⟩
            intro hmem
            obtain ⟨f', hf', hgeq⟩ := List.mem_map.mp hmem
            have := hacc' f' hf'
            simp [hgeq] at this
          · intro f' hf'
            rcases List.mem_cons.mp hf' with h | h
            · exact h ▸ hnotin
            · intro hmem
              exact (hacc' f' h) (by simpa using Or.inl hmem)
        · rintro ⟨hall, hnd, hacc⟩
          rw [List.map_cons, List.nodup_cons] at hnd
          refine ⟨fun f' hf' => hall f' (List.mem_cons_of_mem f hf'), hnd.2,
            fun f' hf' => ?_⟩
          simp only [List.map_append, List.map_cons, List.map_nil,
            List.mem_append, List.mem_singleton]
          rintro (h | h)
          · exact (hacc f' (List.mem_cons_of_mem f hf')) h
          · exact hnd.1 (h ▸ List.mem_map_of_mem getGeometricId hf')
    · rw [if_neg hg]
      constructor
      · rintro ⟨res, hres⟩; exact absurd hres (by simp)
      · rintro ⟨hall, -, -⟩
        exact absurd (hall f (List.mem_cons_self f fs)) hg

/-- The non-empty case of `validateRemapping`, as an equation whose
right-hand side is already past the empty-list guard. -/
theorem validateRemapping_nonempty (faces : List Face)
    (hemp : ¬ faces.isEmpty = true) :
    validateRemapping faces =
      match validateLoop (faces.map Face.id) faces [] with
      | .error e => .error e
      | .ok acc =>
        if (acc.map Prod.fst).toFinset = (faces.map Face.id).toFinset then
          .ok ()
        else
          if (sortedSet ((faces.map Face.id).filter
              (fun i => decide (i ∉ acc.map Prod.fst)))).isEmpty then
            .ok ()
          else
            .error (.missingPositions (sortedSet ((faces.map Face.id).filter
              (fun i => decide (i ∉ acc.map Prod.fst))))) := by
  rw [validateRemapping, if_neg hemp]

theorem validateRemapping_ok_iff (faces : List Face) :
    validateRemapping faces = .ok () ↔ bijectionOntoIds faces := by
  by_cases hemp : faces.isEmpty = true
  · rw [List.isEmpty_iff] at hemp
    subst hemp
    exact ⟨fun _ => ⟨by simp [geomIds], by simp [geomIds]⟩, fun _ => rfl⟩
  · have hvr := validateRemapping_nonempty faces hemp
    cases hloop : validateLoop (faces.map Face.id) faces [] with
    | error e =>
      rw [hloop] at hvr
      have hres : validateRemapping faces = .error e := hvr
      constructor
      · intro h
        rw [hres] at h
        exact absurd h (by simp)
      · rintro ⟨hnd, hfin⟩
        have hmemiff := toFinset_eq_iff.mp hfin
        have : ∃ res, validateLoop (faces.map Face.id) faces [] = .ok res := by
          rw [validateLoop_isOk_iff]
          refine ⟨fun f hf => ?_, hnd, by simp⟩
          exact (hmemiff (getGeometricId f)).mp
            (List.mem_map_of_mem getGeometricId hf)
        obtain ⟨res, hres2⟩ := this
        rw [hloop] at hres2
        exact absurd hres2 (by simp)
    | ok acc =>
      rw [hloop] at hvr
      have hvr2 : validateRemapping faces =
          if (acc.map Prod.fst).toFinset = (faces.map Face.id).toFinset then
            Except.ok ()
          else
            if (sortedSet ((faces.map Face.id).filter
                (fun i => decide (i ∉ acc.map Prod.fst)))).isEmpty then
              Except.ok ()
            else
              Except.error (.missingPositions
                (sortedSet ((faces.map Face.id).filter
                  (fun i => decide (i ∉ acc.map Prod.fst))))) := hvr
      clear hvr
      have hex : ∃ res, validateLoop (faces.map Face.id) faces [] = .ok res :=
        ⟨acc, hloop⟩
      rw [validateLoop_isOk_iff] at hex
      obtain ⟨hall, hnd, -⟩ := hex
      have hacc := validateLoop_ok_val (faces.map Face.id) faces [] acc hloop
      have hkeys : acc.map Prod.fst = geomIds faces := by
        simp [hacc, geomIds, List.map_map, Function.comp]
      rw [hkeys] at hvr2
      have hvr := hvr2
      by_cases hfin : (geomIds faces).toFinset = (faces.map Face.id).toFinset
      · rw [if_pos hfin] at hvr
        rw [hvr]
        exact ⟨fun _ => ⟨hnd, hfin⟩, fun _ => rfl⟩
      · rw [if_neg hfin] at hvr
        have hne : ¬ ((faces.map Face.id).filter
            (fun i => decide (i ∉ geomIds faces))).isEmpty = true := by
          intro hmt
          apply hfin
          rw [toFinset_eq_iff]
          intro a
          constructor
          · intro ha
            obtain ⟨f, hf, hfa⟩ := List.mem_map.mp
              ((by exact ha : a ∈ faces.map getGeometricId))
            exact hfa ▸ hall f hf
          · intro ha
            by_contra hna
            rw [List.isEmpty_iff] at hmt
            have hmem : a ∈ (faces.map Face.id).filter
                (fun i => decide (i ∉ geomIds faces)) := by
              rw [List.mem_filter]
              exact ⟨ha, by simpa using hna⟩
            rw [hmt] at hmem
            simp at hmem
        have hmiss : ¬ (sortedSet ((faces.map Face.id).filter
            (fun i => decide (i ∉ geomIds faces)))).isEmpty = true := by
          intro h
          rw [List.isEmpty_iff, sortedSet_eq_nil_iff] at h
          rw [List.isEmpty_iff] at hne
          exact hne h
        rw [if_neg hmiss] at hvr
        rw [hvr]
        constructor
        · intro h; exact absurd h (by simp)
        · rintro ⟨-, hfin2⟩
          exact absurd hfin2 hfin

theorem validateLoop_dup (allIds : List Int) :
    ∀ (fs : List Face) (acc : List (Int × Int)) (g a b : Int),
      validateLoop allIds fs acc = .error (.duplicatePosition g a b) →
      ∃ f2 ∈ fs, f2.id = b ∧ getGeometricId f2 = g ∧
        ((g, a) ∈ acc ∨
          ∃ f1, f1.id = a ∧ getGeometricId f1 = g ∧ List.Sublist [f1, f2] fs)
  | [], acc, g, a, b => by intro h; exact absurd h (by simp [validateLoop])
  | f :: fs, acc, g, a, b => by
    intro h
    rw [validateLoop] at h
    by_cases hg : getGeometricId f ∈ allIds
    · rw [if_pos hg] at h
      cases hfind : (acc.find? (fun q => q.1 = getGeometricId f)) with
      | some q =>
        rw [hfind] at h
        have hq1 : q.1 = getGeometricId f := by
          have := List.find?_some hfind
          simpa using this
        have hqmem := List.mem_of_find?_eq_some hfind
        simp only [Except.error.injEq, RemapError.duplicatePosition.injEq] at h
        obtain ⟨hgg, hqa, hfb⟩ := h
        refine ⟨f, List.mem_cons_self f fs, hfb, hgg, Or.inl ?_⟩
        have hqeq : (g, a) = q := by
          have h1 : g = q.1 := (hq1.trans hgg).symm
          have h2 : a = q.2 := hqa.symm
          rw [h1, h2]
        exact hqeq ▸ hqmem
      | none =>
        rw [hfind] at h
        obtain ⟨f2, hf2mem, hf2b, hf2g, hrest⟩ :=
          validateLoop_dup allIds fs (acc ++ [(getGeometricId f, f.id)]) g a b h
        refine ⟨f2, List.mem_cons_of_mem f hf2mem, hf2b, hf2g, ?_⟩
        rcases hrest with hacc | ⟨f1, hf1a, hf1g, hsub⟩
        · rcases List.mem_append.mp hacc with h1 | h1
          · exact Or.inl h1
          · right
            have h2 : g = getGeometricId f ∧ a = f.id := by simpa using h1
            exact ⟨f, h2.2.symm, h2.1.symm,
              (List.singleton_sublist.mpr hf2mem).cons₂ f⟩
        · exact Or.inr ⟨f1, hf1a, hf1g, hsub.cons f⟩
    · rw [if_neg hg] at h
      exact absurd h (by simp)

theorem validateLoop_not_missing (allIds : List Int) :
    ∀ (fs : List Face) (acc : List (Int × Int)) (miss : List Int),
      validateLoop allIds fs acc ≠ .error (.missingPositions miss)
  | [], acc, miss => by simp [validateLoop]
  | f :: fs, acc, miss => by
    intro h
    rw [validateLoop] at h
    by_cases hg : getGeometricId f ∈ allIds
    · rw [if_pos hg] at h
      cases hfind : (acc.find? (fun q => q.1 = getGeometricId f)) with
      | some q => rw [hfind] at h; exact absurd h (by simp)
      | none =>
        rw [hfind] at h
        exact validateLoop_not_missing allIds fs
          (acc ++ [(getGeometricId f, f.id)]) miss h
    · rw [if_neg hg] at h
      exact absurd h (by simp)

theorem validateRemapping_dup (faces : List Face) (g a b : Int) :
    validateRemapping faces = .error (.duplicatePosition g a b) →
    ∃ f1 f2, List.Sublist [f1, f2] faces ∧ f1.id = a ∧ f2.id = b ∧
      getGeometricId f1 = g ∧ getGeometricId f2 = g := by
  intro h
  by_cases hemp : faces.isEmpty = true
  · rw [List.isEmpty_iff] at hemp
    subst hemp
    exact absurd h (by simp [validateRemapping])
  · have hvr := validateRemapping_nonempty faces hemp
    cases hloop : validateLoop (faces.map Face.id) faces [] with
    | error e =>
      rw [hloop] at hvr
      have hres : validateRemapping faces = .error e := hvr
      rw [hres] at h
      have he : e = .duplicatePosition g a b := by
        simpa using h
      subst he
      obtain ⟨f2, hf2mem, hf2b, hf2g, hrest⟩ :=
        validateLoop_dup (faces.map Face.id) faces [] g a b hloop
      rcases hrest with hmem | ⟨f1, hf1a, hf1g, hsub⟩
      · exact absurd hmem (List.not_mem_nil _)
      · exact ⟨f1, f2, hsub, hf1a, hf2b, hf1g, hf2g⟩
    | ok acc =>
      rw [hloop] at hvr
      have hvr2 : validateRemapping faces =
          if (acc.map Prod.fst).toFinset = (faces.map Face.id).toFinset then
            Except.ok ()
          else
            if (sortedSet ((faces.map Face.id).filter
                (fun i => decide (i ∉ acc.map Prod.fst)))).isEmpty then
              Except.ok ()
            else
              Except.error (.missingPositions
                (sortedSet ((faces.map Face.id).filter
                  (fun i => decide (i ∉ acc.map Prod.fst))))) := hvr
      rw [hvr2] at h
      by_cases hfin : (acc.map Prod.fst).toFinset =
          (faces.map Face.id).toFinset
      · rw [if_pos hfin] at h
        exact absurd h (by simp)
      · rw [if_neg hfin] at h
        by_cases hmt : (sortedSet ((faces.map Face.id).filter
            (fun i => decide (i ∉ acc.map Prod.fst)))).isEmpty = true
        · rw [if_pos hmt] at h
          exact absurd h (by simp)
        · rw [if_neg hmt] at h
          exact absurd h (by simp)

theorem validateRemapping_missing (faces : List Face) (miss : List Int) :
    validateRemapping faces = .error (.missingPositions miss) →
    miss ≠ [] ∧ ∀ i, i ∈ miss ↔
      (i ∈ faces.map Face.id ∧ i ∉ geomIds faces) := by
  intro h
  by_cases hemp : faces.isEmpty = true
  · rw [List.isEmpty_iff] at hemp
    subst hemp
    exact absurd h (by simp [validateRemapping])
  · have hvr := validateRemapping_nonempty faces hemp
    cases hloop : validateLoop (faces.map Face.id) faces [] with
    | error e =>
      rw [hloop] at hvr
      have hres : validateRemapping faces = .error e := hvr
      rw [hres] at h
      have he : e = .missingPositions miss := by simpa using h
      subst he
      exact absurd hloop (validateLoop_not_missing _ _ _ _)
    | ok acc =>
      rw [hloop] at hvr
      have hvr2 : validateRemapping faces =
          if (acc.map Prod.fst).toFinset = (faces.map Face.id).toFinset then
            Except.ok ()
          else
            if (sortedSet ((faces.map Face.id).filter
                (fun i => decide (i ∉ acc.map Prod.fst)))).isEmpty then
              Except.ok ()
            else
              Except.error (.missingPositions
                (sortedSet ((faces.map Face.id).filter
                  (fun i => decide (i ∉ acc.map Prod.fst))))) := hvr
      have hacc := validateLoop_ok_val (faces.map Face.id) faces [] acc hloop
      have hkeys : acc.map Prod.fst = geomIds faces := by
        simp [hacc, geomIds, List.map_map, Function.comp]
      rw [hkeys] at hvr2
      rw [hvr2] at h
      by_cases hfin : (geomIds faces).toFinset =
          (faces.map Face.id).toFinset
      · rw [if_pos hfin] at h
        exact absurd h (by simp)
      · rw [if_neg hfin] at h
        by_cases hmt : (sortedSet ((faces.map Face.id).filter
            (fun i => decide (i ∉ geomIds faces)))).isEmpty = true
        · rw [if_pos hmt] at h
          exact absurd h (by simp)
        · rw [if_neg hmt] at h
          have hm : sortedSet ((faces.map Face.id).filter
              (fun i => decide (i ∉ geomIds faces))) = miss := by
            simpa using h
          subst hm
          constructor
          · intro hnil
            rw [List.isEmpty_iff] at hmt
            exact hmt hnil
          · intro i
            rw [mem_sortedSet, List.mem_filter]
            simp

/-! ## Helper lemmas: neighbour graph -/

section NeighborHelpers

variable {K : Type} [LinearOrderedField K]

theorem neighborLe_trans (a b c : Neighbor K) :
    (decide (a.distance ≤ b.distance)) → (decide (b.distance ≤ c.distance)) →
    (decide (a.distance ≤ c.distance)) := by
  simp only [decide_eq_true_eq]
  exact le_trans

theorem neighborLe_total (a b : Neighbor K) :
    (decide (a.distance ≤ b.distance)) || (decide (b.distance ≤ a.distance)) := by
  simp only [Bool.or_eq_true, decide_eq_true_eq]
  exact le_total _ _

theorem mem_neighborCandidates {l : LED K} {leds : List (LED K)}
    {n : Neighbor K} (h : n ∈ neighborCandidates l leds) :
    n.led_number ≠ l.index ∧ n.distance ≤ maxNeighborDistance ^ 2 := by
  obtain ⟨other, hmem, hf⟩ := List.mem_filterMap.mp h
  by_cases h1 : l.index ≠ other.index
  · rw [if_pos h1] at hf
    by_cases h2 : distSq l.position other.position ≤ maxNeighborDistance ^ 2
    · rw [if_pos h2] at hf
      have hn : (⟨other.index, distSq l.position other.position⟩ :
          Neighbor K) = n := by
        simpa using hf
      subst hn
      exact ⟨fun hx => h1 hx.symm, h2⟩
    · rw [if_neg h2] at hf
      exact absurd hf (by simp)
  · rw [if_neg h1] at hf
    exact absurd hf (by simp)

theorem sortedCandidates_pairwise (l : LED K) (leds : List (LED K)) :
    (sortedCandidates l leds).Pairwise
      (fun a b : Neighbor K => a.distance ≤ b.distance) := by
  have h := @List.sorted_mergeSort (Neighbor K)
    (fun a b => decide (a.distance ≤ b.distance))
    neighborLe_trans neighborLe_total (neighborCandidates l leds)
  exact h.imp (by simp only [decide_eq_true_eq]; exact id)

theorem mem_sortedCandidates {l : LED K} {leds : List (LED K)}
    {n : Neighbor K} (h : n ∈ sortedCandidates l leds) :
    n ∈ neighborCandidates l leds := by
  rw [sortedCandidates, List.mem_mergeSort] at h
  exact h

end NeighborHelpers

/-! ## Helper lemmas: LED generation -/

section GenerationHelpers

variable {K : Type} [LinearOrderedField K] [MathModel K]

theorem mem_ledsForFace {f : Face} {led : LED K} :
    ∀ {pts : List (PcbPoint K)} {start : Nat},
      led ∈ ledsForFace f pts start →
      ∃ p ∈ pts, ∃ idx, led = ledRecord f idx p
  | [], start => by simp [ledsForFace]
  | p :: ps, start => by
    intro h
    rw [ledsForFace] at h
    rcases List.mem_cons.mp h with h | h
    · exact ⟨p, List.mem_cons_self p ps, start, h⟩
    · obtain ⟨p', hp', idx, hled⟩ := mem_ledsForFace h
      exact ⟨p', List.mem_cons_of_mem p hp', idx, hled⟩

theorem ledsForFace_complete {f : Face} {p : PcbPoint K} :
    ∀ {pts : List (PcbPoint K)} (start : Nat), p ∈ pts →
      ∃ idx, ledRecord f idx p ∈ ledsForFace f pts start
  | [], start => by simp
  | q :: ps, start => by
    intro hp
    rcases List.mem_cons.mp hp with h | h
    · subst h
      exact ⟨start, by rw [ledsForFace]; exact List.mem_cons_self _ _⟩
    · obtain ⟨idx, hmem⟩ := ledsForFace_complete (start + 1) h
      exact ⟨idx, by rw [ledsForFace]; exact List.mem_cons_of_mem _ hmem⟩

theorem mem_generateFaces_flat {pts : List (PcbPoint K)} {led : LED K} :
    ∀ {faces : List (Face × List (LED K))} {start : Nat},
      led ∈ (generateFaces faces pts start).2 →
      ∃ fp ∈ faces, ∃ p ∈ pts, ∃ idx, led = ledRecord fp.1 idx p
  | [], start => by simp [generateFaces]
  | (f, ls) :: rest, start => by
    intro h
    rw [generateFaces] at h
    rcases List.mem_append.mp h with h | h
    · obtain ⟨p, hp, idx, hled⟩ := mem_ledsForFace h
      exact ⟨(f, ls), List.mem_cons_self _ _, p, hp, idx, hled⟩
    · obtain ⟨fp, hfp, p, hp, idx, hled⟩ := mem_generateFaces_flat h
      exact ⟨fp, List.mem_cons_of_mem _ hfp, p, hp, idx, hled⟩

theorem generateFaces_flat_complete {pts : List (PcbPoint K)}
    {fp : Face × List (LED K)} {p : PcbPoint K} :
    ∀ {faces : List (Face × List (LED K))} (start : Nat),
      fp ∈ faces → p ∈ pts →
      ∃ idx, ledRecord fp.1 idx p ∈ (generateFaces faces pts start).2
  | [], start => by simp
  | (f, ls) :: rest, start => by
    intro hfp hp
    rcases List.mem_cons.mp hfp with h | h
    · subst h
      obtain ⟨idx, hmem⟩ := ledsForFace_complete (f := f) start hp
      exact ⟨idx, by rw [generateFaces]; exact List.mem_append_left _ hmem⟩
    · obtain ⟨idx, hmem⟩ :=
        generateFaces_flat_complete (start + pts.length) h hp
      exact ⟨idx, by rw [generateFaces]; exact List.mem_append_right _ hmem⟩

end GenerationHelpers

/-! ## Helper lemmas: unit parsing and placement-file loading -/

theorem pyStrip_eq (s : List Char) :
    pyStrip s = List.rdropWhile isPySpace (List.dropWhile isPySpace s) :=
  rfl

theorem dropWhile_pyStrip (s : List Char) :
    List.dropWhile isPySpace (pyStrip s) = pyStrip s := by
  rw [pyStrip_eq, List.dropWhile_eq_self_iff]
  intro hl
  have hpre : List.IsPrefix
      (List.rdropWhile isPySpace (List.dropWhile isPySpace s))
      (List.dropWhile isPySpace s) := List.rdropWhile_prefix _ _
  have hlen : 0 < (List.dropWhile isPySpace s).length :=
    lt_of_lt_of_le hl (List.IsPrefix.length_le hpre)
  have hget := List.dropWhile_get_zero_not isPySpace s hlen
  have heq := List.IsPrefix.getElem hpre
    (by simpa using hl :
      0 < (List.rdropWhile isPySpace (List.dropWhile isPySpace s)).length)
  simp only [List.get_eq_getElem] at hget ⊢
  rw [heq]
  exact hget

theorem pyStrip_idem (s : List Char) :
    pyStrip (pyStrip s) = pyStrip s := by
  rw [pyStrip_eq (pyStrip s), dropWhile_pyStrip, pyStrip_eq s,
    List.rdropWhile_idempotent]

theorem parseFloat_pyStrip (s : List Char) :
    parseFloat (pyStrip s) = parseFloat s := by
  rw [parseFloat, parseFloat, pyStrip_idem]

theorem processRows_skip (r : PlacementRow) (rs : List PlacementRow)
    (n : Nat) (h : ¬ isLedRow r = true) :
    processRows (r :: rs) n = processRows rs (n + 1) := by
  rw [processRows, if_neg h]

theorem processRows_error_prefix (pre : List PlacementRow)
    (r : PlacementRow) (post : List PlacementRow) (n : Nat)
    (hok : ∀ r' ∈ pre, isLedRow r' = true → (parseLedRow r').isSome)
    (hled : isLedRow r = true) (hbad : parseLedRow r = none) :
    processRows (pre ++ r :: post) n =
      .error (.parseError (n + pre.length)) := by
  induction pre generalizing n with
  | nil =>
    rw [List.nil_append, processRows, if_pos hled, hbad]
    simp
  | cons q pre ih =>
    rw [List.cons_append, processRows]
    by_cases hq : isLedRow q = true
    · rw [if_pos hq]
      have hsome := hok q (List.mem_cons_self q pre) hq
      obtain ⟨p, hp⟩ := Option.isSome_iff_exists.mp hsome
      rw [hp]
      have hrec := ih (n + 1)
        (fun r' hr' => hok r' (List.mem_cons_of_mem q hr'))
      rw [hrec]
      have harith : n + 1 + pre.length = n + (q :: pre).length := by
        simp only [List.length_cons]
        omega
      rw [harith]
      rfl
    · rw [if_neg hq]
      have hrec := ih (n + 1)
        (fun r' hr' => hok r' (List.mem_cons_of_mem q hr'))
      rw [hrec]
      have harith : n + 1 + pre.length = n + (q :: pre).length := by
        simp only [List.length_cons]
        omega
      rw [harith]

/-! ## Claim theorems -/

/-- C1 (amended): remap validation succeeds iff the map
`face ↦ geometric_id()` is a bijection onto the set of *declared logical
face ids* (not the range `{0, …, faceCount−1}`); a geometric ID produced
by two distinct face entries raises a duplicate-position error naming
both conflicting logical face ids; a missing-positions error names
exactly the declared ids claimed by no face and is never empty; and on
any validation error the pipeline stops before geometry generation. -/
theorem claim1_remap_validation {K : Type} [LinearOrderedField K]
    [MathModel K] (faces : List Face) (pts : Option (List (PcbPoint K))) :
    (validateRemapping faces = .ok () ↔ bijectionOntoIds faces)
    ∧ (∀ g a b, validateRemapping faces = .error (.duplicatePosition g a b) →
        ∃ f1 f2, List.Sublist [f1, f2] faces ∧ f1.id = a ∧ f2.id = b ∧
          getGeometricId f1 = g ∧ getGeometricId f2 = g)
    ∧ (∀ miss, validateRemapping faces = .error (.missingPositions miss) →
        miss ≠ [] ∧ ∀ i, i ∈ miss ↔
          (i ∈ faces.map Face.id ∧ i ∉ geomIds faces))
    ∧ (∀ e, validateRemapping faces = .error e →
        runPipeline (K := K) faces pts = .error (.remapError e)) := by
  refine ⟨validateRemapping_ok_iff faces,
    fun g a b h => validateRemapping_dup faces g a b h,
    fun miss h => validateRemapping_missing faces miss h,
    fun e he => ?_⟩
  rw [runPipeline, he]

/-- A closed instance refuting C1 as stated: a single face with logical
id 5 and no remapping passes validation although its geometric ids are
not a bijection onto `{0, …, faceCount−1} = {0}`. -/
theorem claim1_counterexample :
    validateRemapping [⟨5, "pentagon", 0, none⟩] = .ok () ∧
      ¬ bijectionOntoRange [⟨5, "pentagon", 0, none⟩] := by
  decide

/-- Witness for C1: the amended theorem applied at concrete inputs — a
non-contiguous but bijective face list validates, and a duplicated
geometric position yields the duplicate error's two named faces. -/
theorem claim1_remap_validation_witness :
    validateRemapping [⟨3, "pentagon", 0, none⟩, ⟨7, "pentagon", 1, none⟩]
        = .ok () ∧
      ∃ f1 f2, List.Sublist [f1, f2]
          [⟨0, "pentagon", 0, some 1⟩, ⟨1, "pentagon", 0, some 1⟩] ∧
        f1.id = 0 ∧ f2.id = 1 ∧
        getGeometricId f1 = 1 ∧ getGeometricId f2 = 1 :=
  ⟨(claim1_remap_validation (K := ℚ) _ none).1.mpr (by decide),
    (claim1_remap_validation (K := ℚ) _ none).2.1 1 0 1 (by decide)⟩

/-- C2: every LED record built by the generation loop takes its world
position from the face placement transform called with the owning
face's *geometric* id and its rotation, and stores the owning face's
*logical* id in `face_id`; conversely every (face, PCB point) pair
contributes such a record. -/
theorem claim2_led_generation {K : Type} [LinearOrderedField K]
    [MathModel K] (faces : List (Face × List (LED K)))
    (pts : List (PcbPoint K)) (start : Nat) :
    (∀ led ∈ (generateFaces faces pts start).2,
        ∃ fp ∈ faces, ∃ p ∈ pts,
          led.position = transformLedPoint p.x p.y p.num
            (getGeometricId fp.1) fp.1.rotation ∧
          led.face_id = fp.1.id)
    ∧ (∀ fp ∈ faces, ∀ p ∈ pts,
        ∃ led ∈ (generateFaces faces pts start).2,
          led.position = transformLedPoint p.x p.y p.num
            (getGeometricId fp.1) fp.1.rotation ∧
          led.face_id = fp.1.id) := by
  constructor
  · intro led hled
    obtain ⟨fp, hfp, p, hp, idx, hrec⟩ := mem_generateFaces_flat hled
    exact ⟨fp, hfp, p, hp, by rw [hrec]; exact rfl, by rw [hrec]; exact rfl⟩
  · intro fp hfp p hp
    obtain ⟨idx, hmem⟩ := generateFaces_flat_complete start hfp hp
    exact ⟨ledRecord fp.1 idx p, hmem, rfl, rfl⟩

/-- Witness for C2: a single face (logical id 0, rotation 1) and a
single PCB point generate an LED positioned by the transform at the
face's geometric id and tagged with the logical id 0. -/
theorem claim2_led_generation_witness :
    ∃ led ∈ (generateFaces (K := ℚ)
        [(⟨0, "pentagon", 1, none⟩, [])] [⟨1, 2, 0, ['L', 'E', 'D', '1']⟩]
        0).2,
      led.position = transformLedPoint (K := ℚ) 1 2 0
        (getGeometricId ⟨0, "pentagon", 1, none⟩) 1 ∧
      led.face_id = 0 :=
  (claim2_led_generation (K := ℚ)
      [(⟨0, "pentagon", 1, none⟩, [])] [⟨1, 2, 0, ['L', 'E', 'D', '1']⟩]
      0).2
    (⟨0, "pentagon", 1, none⟩, []) (List.mem_singleton.mpr rfl)
    ⟨1, 2, 0, ['L', 'E', 'D', '1']⟩ (List.mem_singleton.mpr rfl)

/-- C3: after neighbour construction every LED's neighbour list has at
most `MAX_LED_NEIGHBORS = 7` entries, is sorted by non-decreasing
(squared) distance, references neither the LED's own index nor any LED
beyond the maximum radius, equals the 7-element prefix of the stable
sort of its candidate list, and the stable sort keeps every
input-ordered candidate pair whose distances are `≤`-related (in
particular ties) in input order. -/
theorem claim3_neighbor_invariants {K : Type} [LinearOrderedField K]
    (leds : List (LED K)) (l : LED K)
    (h : l ∈ calculateNeighbors leds) :
    l.neighbors.length ≤ MAX_LED_NEIGHBORS
    ∧ l.neighbors.Pairwise
        (fun a b : Neighbor K => a.distance ≤ b.distance)
    ∧ (∀ n ∈ l.neighbors, n.led_number ≠ l.index)
    ∧ (∀ n ∈ l.neighbors, n.distance ≤ maxNeighborDistance ^ 2)
    ∧ l.neighbors = (sortedCandidates l leds).take MAX_LED_NEIGHBORS
    ∧ (∀ a b : Neighbor K,
        List.Sublist [a, b] (neighborCandidates l leds) →
        a.distance ≤ b.distance →
        List.Sublist [a, b] (sortedCandidates l leds)) := by
  rw [calculateNeighbors, List.mem_map] at h
  obtain ⟨l0, hl0, hl⟩ := h
  subst hl
  refine ⟨?_, ?_, ?_, ?_, rfl, ?_⟩
  · exact List.length_take_le _ _
  · exact (sortedCandidates_pairwise l0 leds).sublist
      (List.take_sublist _ _)
  · intro n hn
    have hc := mem_sortedCandidates
      ((List.take_sublist _ _).mem hn)
    exact (mem_neighborCandidates hc).1
  · intro n hn
    have hc := mem_sortedCandidates
      ((List.take_sublist _ _).mem hn)
    exact (mem_neighborCandidates hc).2
  · intro a b hsub hab
    exact @List.pair_sublist_mergeSort (Neighbor K)
      (fun a b => decide (a.distance ≤ b.distance)) a b _
      neighborLe_trans neighborLe_total (decide_eq_true hab) hsub

unseal List.mergeSort in
/-- Witness for C3 at a concrete input: a one-LED model, whose LED
keeps an empty neighbour list satisfying every invariant. -/
theorem claim3_neighbor_invariants_witness :
    (LED.neighbors (K := ℚ) ⟨0, ⟨0, 0, 0⟩, 1, 0, []⟩).length
        ≤ MAX_LED_NEIGHBORS
    ∧ (LED.neighbors (K := ℚ) ⟨0, ⟨0, 0, 0⟩, 1, 0, []⟩).Pairwise
        (fun a b : Neighbor ℚ => a.distance ≤ b.distance)
    ∧ (∀ n ∈ LED.neighbors (K := ℚ) ⟨0, ⟨0, 0, 0⟩, 1, 0, []⟩,
        n.led_number ≠ (0 : Nat))
    ∧ (∀ n ∈ LED.neighbors (K := ℚ) ⟨0, ⟨0, 0, 0⟩, 1, 0, []⟩,
        n.distance ≤ maxNeighborDistance ^ 2)
    ∧ LED.neighbors (K := ℚ) ⟨0, ⟨0, 0, 0⟩, 1, 0, []⟩ =
        (sortedCandidates ⟨0, ⟨0, 0, 0⟩, 1, 0, []⟩
          [⟨0, ⟨0, 0, 0⟩, 1, 0, []⟩]).take MAX_LED_NEIGHBORS
    ∧ (∀ a b : Neighbor ℚ,
        List.Sublist [a, b] (neighborCandidates ⟨0, ⟨0, 0, 0⟩, 1, 0, []⟩
          [⟨0, ⟨0, 0, 0⟩, 1, 0, []⟩]) →
        a.distance ≤ b.distance →
        List.Sublist [a, b] (sortedCandidates ⟨0, ⟨0, 0, 0⟩, 1, 0, []⟩
          [⟨0, ⟨0, 0, 0⟩, 1, 0, []⟩])) :=
  claim3_neighbor_invariants [⟨0, ⟨0, 0, 0⟩, 1, 0, []⟩]
    ⟨0, ⟨0, 0, 0⟩, 1, 0, []⟩ (by decide)

/-- C4: `push(); T; pop()` restores the engine state exactly, for any
state, any point and any sequence of rotate/translate operations, so
`apply` afterwards agrees with `apply` before the push. -/
theorem claim4_push_pop_roundtrip {K : Type} [LinearOrderedField K]
    [MathModel K] (st : Matrix3D K) (T : List (TOp K)) (p : Point3D K) :
    Matrix3D.pop_matrix (execOps T st.push_matrix) = .ok st
    ∧ ∀ st', Matrix3D.pop_matrix (execOps T st.push_matrix) = .ok st' →
        st'.apply p = st.apply p := by
  have hstack : (execOps T st.push_matrix).stack = st.m :: st.stack := by
    rw [execOps_stack]
    rfl
  have hpop : Matrix3D.pop_matrix (execOps T st.push_matrix) = .ok st := by
    rw [Matrix3D.pop_matrix, hstack]
  refine ⟨hpop, fun st' h => ?_⟩
  rw [hpop] at h
  have : st = st' := by simpa using h
  rw [this]

/-- Witness for C4 at a concrete input: a translate between push and
pop on a fresh rational engine. -/
theorem claim4_push_pop_roundtrip_witness :
    Matrix3D.pop_matrix
        (execOps [TOp.transl 1 2 3] (Matrix3D.init (K := ℚ)).push_matrix) =
      .ok Matrix3D.init
    ∧ ∀ st', Matrix3D.pop_matrix
          (execOps [TOp.transl 1 2 3]
            (Matrix3D.init (K := ℚ)).push_matrix) = .ok st' →
        st'.apply ⟨1, 2, 3⟩ = (Matrix3D.init (K := ℚ)).apply ⟨1, 2, 3⟩ :=
  claim4_push_pop_roundtrip Matrix3D.init [TOp.transl 1 2 3] ⟨1, 2, 3⟩

/-- C5 (amended): the face placement applies the rotation parameter as
an additional Z-rotation of exactly `r · (2π/5)` — the fixed pentagon
constant `ro`, independent of the face type's side count — which
coincides with the spec's `r · (2π / sides)` exactly when the formula
is read at `sides = 5`; with that reading the code transform and the
spec transform agree on every input. -/
theorem claim5_rotation_amended {K : Type} [LinearOrderedField K]
    [MathModel K] (sides : Nat) (r : Int) (h : sides = 5) :
    appliedSideRotation (K := K) r = specSideRotation sides r
    ∧ ∀ (x y : K) (num sideNumber : Int),
        transformLedPoint x y num sideNumber r =
          transformLedPointSpec sides x y num sideNumber r := by
  subst h
  have hangle : appliedSideRotation (K := K) r = specSideRotation 5 r := by
    rw [appliedSideRotation, specSideRotation, ro]
    push_cast
    ring
  refine ⟨hangle, fun x y num sideNumber => ?_⟩
  rw [transformLedPoint, transformLedPointSpec, hangle]

/-- A closed instance refuting C5 as stated: for a face type with 3
sides and rotation count 1, the angle the code applies (`ro · 1 =
2π/5`) is not the spec's `1 · (2π/3)`. -/
theorem claim5_counterexample :
    appliedSideRotation (K := ℝ) 1 ≠ specSideRotation (K := ℝ) 3 1 := by
  rw [appliedSideRotation, specSideRotation, ro, TWO_PI]
  have hpi : (MathModel.pi : ℝ) = Real.pi := rfl
  rw [hpi]
  push_cast
  intro h
  have hp := Real.pi_pos
  rw [mul_one, one_mul] at h
  have h3 : (2 * Real.pi / 5) * 15 = (2 * Real.pi / 3) * 15 := by rw [h]
  field_simp at h3
  linarith

/-- Witness for C5: the amended theorem applied at `sides = 5`,
`r = 2`, over the real instance. -/
theorem claim5_rotation_amended_witness :
    appliedSideRotation (K := ℝ) 2 = specSideRotation (K := ℝ) 5 2
    ∧ ∀ (x y : ℝ) (num sideNumber : Int),
        transformLedPoint x y num sideNumber 2 =
          transformLedPointSpec 5 x y num sideNumber 2 :=
  claim5_rotation_amended 5 2 rfl

/-- C6: `"25.4mm"` and `"1000mil"` normalise to the same internal value
(25.4 mm, exactly in the rational model), and a bare number with no
unit suffix is parsed as millimetres unchanged. -/
theorem claim6_unit_normalization :
    stripUnits "25.4mm".data = some (127 / 5)
    ∧ stripUnits "1000mil".data = some (127 / 5)
    ∧ stripUnits "1000mil".data = stripUnits "25.4mm".data
    ∧ ∀ s : List Char,
        ¬ (['m', 'i', 'l'].isSuffixOf (pyStrip s) = true) →
        ¬ (['m', 'm'].isSuffixOf (pyStrip s) = true) →
        stripUnits s = parseFloat s := by
  have h1 : stripUnits "25.4mm".data = some (127 / 5) := by
    with_unfolding_all rfl
  have h2 : stripUnits "1000mil".data = some (127 / 5) := by
    with_unfolding_all rfl
  refine ⟨h1, h2, by rw [h1, h2], fun s hmil hmm => ?_⟩
  rw [stripUnits, if_neg hmil, if_neg hmm, parseFloat_pyStrip]

/-- Witness for C6: the bare-number clause applied to `"7"`. -/
theorem claim6_unit_normalization_witness :
    stripUnits "7".data = parseFloat "7".data :=
  claim6_unit_normalization.2.2.2 "7".data (by decide) (by decide)

/-- C7: `pop()` raises exactly when the save stack is empty — the error
is the "Matrix stack is empty" exception — and a `pop()` after an
unmatched `push()` (with any rotate/translate operations in between)
always succeeds. -/
theorem claim7_pop_empty_error {K : Type} [LinearOrderedField K]
    [MathModel K] (st : Matrix3D K) :
    (Matrix3D.pop_matrix st = .error "Matrix stack is empty" ↔
      st.stack = [])
    ∧ ∀ T : List (TOp K), ∃ st',
        Matrix3D.pop_matrix (execOps T st.push_matrix) = .ok st' := by
  constructor
  · cases hst : st.stack with
    | nil =>
      constructor
      · intro _; rfl
      · intro _
        rw [Matrix3D.pop_matrix, hst]
    | cons top rest =>
      constructor
      · intro h
        rw [Matrix3D.pop_matrix, hst] at h
        exact absurd h (by simp)
      · intro h
        exact absurd h (List.cons_ne_nil top rest)
  · intro T
    refine ⟨st, ?_⟩
    have hstack : (execOps T st.push_matrix).stack = st.m :: st.stack := by
      rw [execOps_stack]
      rfl
    rw [Matrix3D.pop_matrix, hstack]

/-- Witness for C7: on a fresh rational engine, `pop` errors (empty
stack), and `pop` after `push` succeeds. -/
theorem claim7_pop_empty_error_witness :
    Matrix3D.pop_matrix (Matrix3D.init (K := ℚ)) =
        .error "Matrix stack is empty"
    ∧ ∃ st', Matrix3D.pop_matrix
        (execOps [] (Matrix3D.init (K := ℚ)).push_matrix) = .ok st' :=
  ⟨(claim7_pop_empty_error Matrix3D.init).1.mpr rfl,
    (claim7_pop_empty_error Matrix3D.init).2 []⟩

/-- C8: loading the placement file fails with the not-found error when
the file is missing; a data row whose designator does not start with
`LED` is skipped and contributes nothing; and when every earlier LED
row parses, a recognised LED row that fails to parse aborts the load
with a parse error carrying that row's line number (data rows are
numbered from 2). -/
theorem claim8_load_pcb :
    loadPcbPoints none = .error .notFound
    ∧ (∀ (r : PlacementRow) (rs : List PlacementRow) (n : Nat),
        ¬ isLedRow r = true →
        processRows (r :: rs) n = processRows rs (n + 1))
    ∧ (∀ (pre : List PlacementRow) (r : PlacementRow)
          (post : List PlacementRow),
        (∀ r' ∈ pre, isLedRow r' = true → (parseLedRow r').isSome) →
        isLedRow r = true → parseLedRow r = none →
        loadPcbPoints (some (pre ++ r :: post)) =
          .error (.parseError (2 + pre.length))) := by
  refine ⟨rfl, processRows_skip, fun pre r post hok hled hbad => ?_⟩
  rw [loadPcbPoints]
  exact processRows_error_prefix pre r post 2 hok hled hbad

/-- Witness for C8: a single unparseable LED row aborts the load with
line number 2. -/
theorem claim8_load_pcb_witness :
    loadPcbPoints (some [⟨['L', 'E', 'D', '1'], ['z', 'z'], ['y', 'y']⟩])
        = .error (.parseError 2) :=
  claim8_load_pcb.2.2 [] ⟨['L', 'E', 'D', '1'], ['z', 'z'], ['y', 'y']⟩ []
    (by decide) (by decide) (by decide)

/-- C9: `generate_model()` before `load_pcb_data` (the `_pcb_points`
field still `None`) raises `RuntimeError("PCB data must be loaded
first")`, producing no successor state at all — in particular no LED
record is appended to the model or to any face. -/
theorem claim9_generate_requires_pcb {K : Type} [LinearOrderedField K]
    [MathModel K] (s : DodecaState K) (h : s.pcbPoints = none) :
    generateModel s = .error "PCB data must be loaded first"
    ∧ ∀ s', generateModel s ≠ .ok s' := by
  obtain ⟨faces, pcb, leds⟩ := s
  simp only at h
  subst h
  exact ⟨rfl, fun s' hc => by simp [generateModel] at hc⟩

/-- Witness for C9: the empty model state with no loaded PCB data. -/
theorem claim9_generate_requires_pcb_witness :
    generateModel (K := ℚ) ⟨[], none, []⟩ =
        .error "PCB data must be loaded first"
    ∧ ∀ s', generateModel (K := ℚ) ⟨[], none, []⟩ ≠ .ok s' :=
  claim9_generate_requires_pcb ⟨[], none, []⟩ rfl

/-- C10: remap validation accepts every face list whose geometric ids
form a duplicate-free set equal to the set of declared logical face
ids — contiguous or not — and accepts the empty face list outright. -/
theorem claim10_validation_accepts_id_bijections (faces : List Face)
    (h : bijectionOntoIds faces) :
    validateRemapping faces = .ok ()
    ∧ validateRemapping ([] : List Face) = .ok () :=
  ⟨(validateRemapping_ok_iff faces).mpr h, rfl⟩

/-- Witness for C10: a two-face list with non-contiguous logical ids 3
and 7 and no remapping passes validation. -/
theorem claim10_validation_accepts_id_bijections_witness :
    validateRemapping [⟨3, "pentagon", 0, none⟩, ⟨7, "pentagon", 1, none⟩]
        = .ok ()
    ∧ validateRemapping ([] : List Face) = .ok () :=
  claim10_validation_accepts_id_bijections
    [⟨3, "pentagon", 0, none⟩, ⟨7, "pentagon", 1, none⟩] (by decide)
